import Mathlib

/-!
Shallow embedding of `app.py` from the nengaweb repository: a ledger of
people, their mailing addresses, the per-person pointer to the currently
valid address, per-year greeting-card (nenga) records, and a CSV export.

Database rows become Lean structures, the SQLite tables become lists of
rows inside a `Store`, and each operation of the source becomes a pure
function from `Store` to `Store` (with `Option`/custom error codes for the
paths where the Python code raises).  All integer columns are modelled as
`Int`, string columns as `String`.
-/

deriving instance DecidableEq for Except

namespace Nengaweb

/-- Row of table `people` (`class Person`): id, family_name, given_name,
disabled (0 = active, 1 = hidden).  `last_update` is a timestamp that no
modelled operation reads; it is omitted. -/
structure Person where
  id : Int
  family_name : String
  given_name : String
  disabled : Int
deriving DecidableEq

/-- Row of table `addresses` (`class Address`). -/
structure Address where
  id : Int
  person_id : Int
  family_name : String
  given_name : String
  joint_name1 : String
  joint_name2 : String
  zipcode : String
  address1 : String
  address2 : String
deriving DecidableEq

/-- Row of table `available_addresses` (`class AvailableAddress`):
`person_id` is the primary key, so the table holds at most one row per
person; `address_id` points at the person's current address. -/
structure AvailableAddress where
  person_id : Int
  address_id : Int
deriving DecidableEq

/-- Row of table `nenga` (`class Nenga`): one greeting-card record per
(address, year).  `printing`: 0 not sent, 1 sent, 2 sent as reply;
`received`: 0/1/2 likewise; `mourning`: 0 normal, 1 in mourning. -/
structure Nenga where
  id : Int
  address_id : Int
  year : Int
  printing : Int
  received : Int
  mourning : Int
deriving DecidableEq

/-- Row of table `years` (`class Year`): `lock` 0 = editable, 1 = frozen. -/
structure YearRow where
  year : Int
  lock : Int
deriving DecidableEq

/-- The whole SQLite database: one list of rows per table. -/
structure Store where
  people : List Person
  addresses : List Address
  availables : List AvailableAddress
  nengas : List Nenga
  years : List YearRow
deriving DecidableEq

/-- Error outcomes of the modelled operations.  `alreadyInitialized` is the
`ValueError` raised by `init_nextyear`; `attributeError` the Python
`AttributeError` from `getattr` on an unknown column; `valueError` the
`ValueError` from `int()` on a malformed value or from unpacking a split
that does not have exactly two parts; `integrityError` the SQLAlchemy
`IntegrityError` raised at commit when a flush violates a NOT NULL
constraint.  `inUse` is the specification's label for a graceful
retire-refusal error; no code path produces it — it exists so that the
claim naming it can be stated and compared with what the code does.  An
error result models an uncaught exception: the transaction is not
committed, so the durable database state is unchanged. -/
inductive Err where
  | alreadyInitialized
  | attributeError
  | valueError
  | notFound
  | integrityError
  | inUse
deriving DecidableEq

/-- Helper for `pySplit`: split a character list at every separator. -/
def splitCharsAux (sep : Char) : List Char → List Char → List (List Char)
  | [], acc => [acc.reverse]
  | c :: rest, acc =>
      if c = sep then acc.reverse :: splitCharsAux sep rest []
      else splitCharsAux sep rest (c :: acc)

/-- Python `s.split(sep)` for a one-character separator (the source only
uses `split("_")`). -/
def pySplit (sep : Char) (s : String) : List String :=
  (splitCharsAux sep s.toList []).map (fun cs => String.mk cs)

/-- Helper for `pyInt`: value of a nonempty all-digit character list. -/
def digitsValAux : List Char → Nat → Option Nat
  | [], acc => some acc
  | c :: rest, acc =>
      if c.isDigit then digitsValAux rest (acc * 10 + (c.toNat - 48)) else none

/-- Python `int(s)` on the inputs the source feeds it: an optional minus
sign followed by decimal digits; anything else raises `ValueError`
(modelled as `none`). -/
def pyInt (s : String) : Option Int :=
  match s.toList with
  | [] => none
  | c :: rest =>
      if c = '-' then
        match rest with
        | [] => none
        | _ => (digitsValAux rest 0).map (fun n => -(n : Int))
      else (digitsValAux (c :: rest) 0).map (fun n => (n : Int))

/-- Test `session.query(Year).filter_by(year=y).count() != 0`. -/
def yearExists (s : Store) (y : Int) : Bool :=
  s.years.any (fun row => row.year == y)

/-- The Nenga rows recorded for year `y`, in table order. -/
def rowsForYear (s : Store) (y : Int) : List Nenga :=
  s.nengas.filter (fun n => n.year == y)

/-- Number of Nenga rows recorded for year `y`. -/
def nengaCountForYear (s : Store) (y : Int) : Nat :=
  (rowsForYear s y).length

/-- Ordering by ascending address id, used for `order_by(Address.id)`. -/
def addrLE (a b : Address) : Prop := a.id ≤ b.id

instance : DecidableRel addrLE := fun a b => Int.decLe a.id b.id

instance : IsTotal Address addrLE := ⟨fun a b => Int.le_total a.id b.id⟩

instance : IsTrans Address addrLE := ⟨fun _ _ _ h h₂ => le_trans h h₂⟩

/-- Query `session.query(Address).join(Address.available).order_by(Address.id)`:
the inner join of `addresses` with `available_addresses` on
`available_addresses.address_id = addresses.id`, ordered by ascending
address id; one output row (the address entity) per joined pair. -/
def initCandidates (s : Store) : List Address :=
  (s.addresses.insertionSort addrLE).flatMap
    (fun a => (s.availables.filter (fun av => av.address_id == a.id)).map (fun _ => a))

/-- Fresh primary key for a new `nenga` row (SQLite autoincrement). -/
def freshNengaId (s : Store) : Int :=
  (s.nengas.foldr (fun n m => max n.id m) 0) + 1

/-- The loop body of `init_nextyear`: one new Nenga row per candidate
address, with the defaults `printing=1, received=0, mourning=0` set by the
source, consecutive fresh ids. -/
def mkNengaRows (baseId : Int) (y : Int) : List Address → List Nenga
  | [] => []
  | a :: rest =>
      { id := baseId, address_id := a.id, year := y,
        printing := 1, received := 0, mourning := 0 } :: mkNengaRows (baseId + 1) y rest

/-- First half of `init_nextyear` up to the first `session.commit()`:
insert the Year row with `lock = 0`. -/
def init_year_step (s : Store) (y : Int) : Store :=
  { s with years := s.years ++ [{ year := y, lock := 0 }] }

/-- Second half of `init_nextyear` up to the second `session.commit()`:
insert one Nenga row per candidate address. -/
def init_nenga_step (s : Store) (y : Int) : Store :=
  { s with nengas := s.nengas ++ mkNengaRows (freshNengaId s) y (initCandidates s) }

/-- The sequence of database states made durable by `session.commit()`
during `init_nextyear`: none when the year already exists (the function
raises before any commit), otherwise the state after the Year-row commit
followed by the state after the Nenga-rows commit. -/
def init_nextyear_commits (s : Store) (y : Int) : List Store :=
  if yearExists s y then []
  else [init_year_step s y, init_nenga_step (init_year_step s y) y]

/-- Function `init_nextyear` (source lines 133-154) for target year `y` (the source
computes `y` as the calendar year after the current date): raises
`ValueError` when year `y` already has data, else commits the Year row and
then the Nenga rows.  Returns the final database state paired with the
raised error, if any. -/
def init_nextyear (s : Store) (y : Int) : Store × Option Err :=
  if yearExists s y then (s, some Err.alreadyInitialized)
  else (init_nenga_step (init_year_step s y) y, none)

/-- Query `session.query(AvailableAddress).filter_by(person_id=pid).first()`,
projected to the pointed-at address id: the current address of a person. -/
def currentAddressId (s : Store) (pid : Int) : Option Int :=
  (s.availables.find? (fun av => av.person_id == pid)).map (fun av => av.address_id)

/-- The `address_list` view: all addresses of a person, ordered by
ascending address id (`order_by(Address.id)`). -/
def addressHistory (s : Store) (pid : Int) : List Address :=
  (s.addresses.filter (fun a => a.person_id == pid)).insertionSort addrLE

/-- The get-or-create-and-update on `available_addresses` done inside
`address_activate`: `.first()` row with this `person_id` gets its
`address_id` overwritten; when none exists a fresh row is created and
`session.add`ed (appended). -/
def updateFirstAvail : List AvailableAddress → Int → Int → List AvailableAddress
  | [], pid, aid => [{ person_id := pid, address_id := aid }]
  | av :: rest, pid, aid =>
      if av.person_id == pid then { av with address_id := aid } :: rest
      else av :: updateFirstAvail rest pid aid

/-- Function `address_activate` (source lines 322-335): loop over the person's
addresses; when one matches the chosen id, point the person's
`AvailableAddress` row at it and commit.  A chosen id not owned by the
person matches no loop iteration and the store is unchanged. -/
def address_activate (s : Store) (pid : Int) (chosen : Int) : Store :=
  if (s.addresses.filter (fun a => a.person_id == pid)).any (fun a => a.id == chosen) then
    { s with availables := updateFirstAvail s.availables pid chosen }
  else s

/-- Function `address_delete` (source lines 338-345): fetch the address with
`.one()` (raises when absent, modelled as `notFound`); when some
`AvailableAddress` row references it (`if addr.available:`) return the
ordinary redirect without deleting — no error is raised; otherwise
`session.delete(addr)` and `session.commit()`.  The source has no explicit
check of the `nenga` table, but the commit is not free to dangle rows: the
`nengas` backref (source line 115) is configured with no delete cascade
and no `passive_deletes`, so at flush SQLAlchemy loads the referencing
Nenga rows and de-associates them by setting `nenga.address_id` to NULL
(its default "nullify" handling of a deleted parent); `address_id` is
`nullable=False` (source line 106) and SQLite enforces NOT NULL, so when
at least one Nenga row references the address the commit raises
`IntegrityError` and nothing is deleted.  Only an address referenced by
neither table is actually removed. -/
def address_delete (s : Store) (chosen : Int) : Except Err Store :=
  match s.addresses.find? (fun a => a.id == chosen) with
  | none => Except.error Err.notFound
  | some a =>
      if s.availables.any (fun av => av.address_id == a.id) then Except.ok s
      else if s.nengas.any (fun n => n.address_id == a.id) then
        Except.error Err.integrityError
      else Except.ok { s with addresses := s.addresses.filter (fun x => !(x.id == chosen)) }

/-- The mapped ORM columns of `Nenga` reachable by `getattr`.  `addressId`
(`address_id`) exists as a column but its name contains an underscore, so
the `split("_")` decoding of the action string can never produce it. -/
inductive NengaField where
  | nid
  | addressId
  | year
  | printing
  | received
  | mourning
deriving DecidableEq

/-- Lookup `getattr(Nenga, name)` for the names an action string can carry (no
underscore): the five single-word columns succeed; `address` resolves to a
relationship whose use as an update key raises, and every other name
raises `AttributeError` — both modelled as failure. -/
def nengaColumnOf (name : String) : Option NengaField :=
  if name == ("id") then some NengaField.nid
  else if name == ("year") then some NengaField.year
  else if name == ("printing") then some NengaField.printing
  else if name == ("received") then some NengaField.received
  else if name == ("mourning") then some NengaField.mourning
  else none

/-- Read one column of a `Nenga` row. -/
def nengaField (n : Nenga) : NengaField → Int
  | NengaField.nid => n.id
  | NengaField.addressId => n.address_id
  | NengaField.year => n.year
  | NengaField.printing => n.printing
  | NengaField.received => n.received
  | NengaField.mourning => n.mourning

/-- Write one column of a `Nenga` row. -/
def setNengaField (n : Nenga) : NengaField → Int → Nenga
  | NengaField.nid, v => { n with id := v }
  | NengaField.addressId, v => { n with address_id := v }
  | NengaField.year, v => { n with year := v }
  | NengaField.printing, v => { n with printing := v }
  | NengaField.received, v => { n with received := v }
  | NengaField.mourning, v => { n with mourning := v }

/-- The UPDATE statement of `nenga_bulk_edit`:
`session.query(Nenga).filter(Nenga.id.in_(target_ids)).update({column: int(value)})` —
set one column to `v` on every row whose id is listed, leaving every other
row alone. -/
def bulkApply (s : Store) (col : NengaField) (v : Int) (target_ids : List Int) : Store :=
  { s with nengas := s.nengas.map (fun n =>
      if target_ids.contains n.id then setNengaField n col v else n) }

/-- The outcome of `nenga_bulk_edit` as a function of the decoded column
and value: unknown attribute → AttributeError, malformed integer →
ValueError, otherwise the unvalidated UPDATE runs. -/
def bulkOutcome (s : Store) (ids : List Int) :
    Option NengaField → Option Int → Except Err Store
  | none, _ => Except.error Err.attributeError
  | some _, none => Except.error Err.valueError
  | some col, some x => Except.ok (bulkApply s col x ids)

/-- Function `nenga_bulk_edit` (source lines 234-246): decode the submit-button
value `"<column_name>_<column_value>"`, look the column up with `getattr`,
and run one UPDATE setting that column to `int(value)` on every `nenga`
row whose id is in `target_ids`.  No validation of the column name against
the three status flags and no domain check of the value happens; the only
failures are the unpack `ValueError` (not exactly two parts), the
`AttributeError` from an unknown attribute, and the `ValueError` from
`int()` — all raised before any row is written. -/
def nenga_bulk_edit (s : Store) (action : String) (target_ids : List Int) : Except Err Store :=
  match pySplit '_' action with
  | [column_name, value] =>
      match nengaColumnOf column_name with
      | none => Except.error Err.attributeError
      | some col =>
          match pyInt value with
          | none => Except.error Err.valueError
          | some v => Except.ok (bulkApply s col v target_ids)
  | _ => Except.error Err.valueError

/-- Options of the `genenga` subcommand that `export_genenga_csv` reads.
CLI defaults: `later_only = false`, `exclude_mourning = true`,
`split_zipcode = true`. -/
structure ExportArgs where
  later_only : Bool
  exclude_mourning : Bool
  split_zipcode : Bool
deriving DecidableEq

/-- Ordering by ascending record id, used for `order_by(Nenga.id)`. -/
def nengaLE (a b : Nenga) : Prop := a.id ≤ b.id

instance : DecidableRel nengaLE := fun a b => Int.decLe a.id b.id

instance : IsTotal Nenga nengaLE := ⟨fun a b => Int.le_total a.id b.id⟩

instance : IsTrans Nenga nengaLE := ⟨fun _ _ _ h h₂ => le_trans h h₂⟩

/-- Query `session.query(Nenga).filter_by(year=y).order_by(Nenga.id).all()`. -/
def yearTargets (s : Store) (y : Int) : List Nenga :=
  (rowsForYear s y).insertionSort nengaLE

/-- Resolve the `Nenga.address` relationship: the address row whose id is
the record's `address_id`. -/
def lookupAddress (s : Store) (aid : Int) : Option Address :=
  s.addresses.find? (fun a => a.id == aid)

/-- The flag computation of `export_genenga_csv` (source lines 390-400):
`flag = 0`; with `--later-only`, `flag = 1` iff `printing == 2`, otherwise
`flag = 1` iff `printing > 0`; then mourning suppression forces 0. -/
def nengaFlag (args : ExportArgs) (n : Nenga) : Int :=
  let flag : Int := if args.later_only then (if n.printing == 2 then 1 else 0)
    else (if n.printing > 0 then 1 else 0)
  if args.exclude_mourning && (n.mourning == 1) then 0 else flag

/-- One CSV row of `export_genenga_csv` (source lines 402-417): flag,
the address-card names (`joint_name2` is not emitted — genenga does not
support it), the two address lines, then the zipcode either one character
per column or as a single column. -/
def exportRow (args : ExportArgs) (n : Nenga) (a : Address) : List String :=
  [toString (nengaFlag args n), a.family_name, a.given_name, a.joint_name1,
    a.address1, a.address2]
  ++ (if args.split_zipcode then a.zipcode.toList.map (fun c => Char.toString c)
      else [a.zipcode])

/-- Function `export_genenga_csv` (source lines 384-418) as the sequence of CSV
rows it writes: the year's records in ascending id order, each joined to
its address.  `none` models the crash when a record's `address_id` matches
no address row (`target.address` is `None` in the source). -/
def export_genenga_csv (s : Store) (y : Int) (args : ExportArgs) :
    Option (List (List String)) :=
  (yearTargets s y).mapM
    (fun n => (lookupAddress s n.address_id).map (fun a => exportRow args n a))

/-- The should-print flag in the words of the specification: 1 iff
(`printing == 2` when laterOnly, else `printing ∈ {1, 2}`), forced to 0
when excludeMourning is set and `mourning == 1`. -/
def specFlag (args : ExportArgs) (n : Nenga) : Bool :=
  (if args.later_only then n.printing == 2 else (n.printing == 1 || n.printing == 2))
    && !(args.exclude_mourning && (n.mourning == 1))

/-- The CSV row in the words of the specification: flag as a string, then
family name, given name, first joint name, the two address lines, then the
zipcode characters one per column (when split) or the zipcode whole. -/
def specRow (args : ExportArgs) (n : Nenga) (a : Address) : List String :=
  [(if specFlag args n then ("1") else ("0")), a.family_name, a.given_name,
    a.joint_name1, a.address1, a.address2]
  ++ (if args.split_zipcode then a.zipcode.toList.map (fun c => Char.toString c)
      else [a.zipcode])

/-- Two Nenga rows that agree on everything except possibly `received`. -/
def sameExceptReceived (n₁ n₂ : Nenga) : Prop :=
  n₁.id = n₂.id ∧ n₁.address_id = n₂.address_id ∧ n₁.year = n₂.year ∧
    n₁.printing = n₂.printing ∧ n₁.mourning = n₂.mourning

/-- Two stores that differ only in the `received` values of their Nenga
rows. -/
def differOnlyInReceived (s₁ s₂ : Store) : Prop :=
  s₁.people = s₂.people ∧ s₁.addresses = s₂.addresses ∧
    s₁.availables = s₂.availables ∧ s₁.years = s₂.years ∧
    List.Forall₂ sameExceptReceived s₁.nengas s₂.nengas

/-- Fallback address used only under `Option.getD`; the theorems using it
carry a hypothesis that rules the fallback out. -/
def defaultAddress : Address :=
  { id := 0, person_id := 0, family_name := (""), given_name := (""),
    joint_name1 := (""), joint_name2 := (""), zipcode := (""),
    address1 := (""), address2 := ("") }

/-- Sample address 1 of person 1, used by concrete witnesses. -/
def wAddr1 : Address :=
  { id := 1, person_id := 1, family_name := ("a"), given_name := ("b"),
    joint_name1 := ("c"), joint_name2 := ("d"), zipcode := ("1234567"),
    address1 := ("e"), address2 := ("f") }

/-- Sample address 2 of person 1, used by concrete witnesses. -/
def wAddr2 : Address :=
  { id := 2, person_id := 1, family_name := ("a"), given_name := ("b"),
    joint_name1 := (""), joint_name2 := (""), zipcode := ("7654321"),
    address1 := ("g"), address2 := ("h") }

/-- Sample database: one disabled person owning two addresses, the first
one current, year 2026 initialized with one card record. -/
def wStore : Store :=
  { people := [{ id := 1, family_name := ("a"), given_name := ("b"), disabled := 1 }],
    addresses := [wAddr1, wAddr2],
    availables := [{ person_id := 1, address_id := 1 }],
    nengas := [{ id := 1, address_id := 1, year := 2026, printing := 1,
                 received := 0, mourning := 0 }],
    years := [{ year := 2026, lock := 0 }] }

/-- Sample database for the retire counterexample: one address that is not
anyone's current address but is referenced by a card record. -/
def cStoreDelete : Store :=
  { people := [], addresses := [wAddr1], availables := [],
    nengas := [{ id := 1, address_id := 1, year := 2026, printing := 1,
                 received := 0, mourning := 0 }],
    years := [{ year := 2026, lock := 0 }] }

/-- Sample database for the bulk-edit counterexample: a single card record
with `printing = 0`. -/
def cStoreBulk : Store :=
  { people := [], addresses := [], availables := [],
    nengas := [{ id := 1, address_id := 1, year := 2026, printing := 0,
                 received := 0, mourning := 0 }],
    years := [{ year := 2026, lock := 0 }] }

/-- Sample database whose card record differs from `cStoreBulk` only in
`received`. -/
def wStoreRecv : Store :=
  { cStoreBulk with
    nengas := [{ id := 1, address_id := 1, year := 2026, printing := 0,
                 received := 1, mourning := 0 }] }

/-!  General-purpose lemmas about the embedded operations. -/

theorem length_filter_add_not {α} (p : α → Bool) (l : List α) :
    (l.filter p).length + (l.filter (fun x => !(p x))).length = l.length := by
  induction l with
  | nil => rfl
  | cons x l ih =>
    rcases Bool.eq_false_or_eq_true (p x) with h | h <;>
      simp [List.filter_cons, h] <;> omega

theorem flatMap_join_length :
    ∀ (addrs : List Address) (avs : List AvailableAddress),
      (addrs.map (fun a => a.id)).Nodup →
      (∀ av ∈ avs, ∃ a ∈ addrs, a.id = av.address_id) →
      (addrs.flatMap
        (fun a => (avs.filter (fun av => av.address_id == a.id)).map (fun _ => a))).length
        = avs.length
  | [], avs, _, hfk => by
      cases avs with
      | nil => rfl
      | cons av rest => exact absurd (hfk av (by simp)) (by simp)
  | a :: rest, avs, hnodup, hfk => by
      have hmap : (List.map (fun x => x.id) (a :: rest)).Nodup := hnodup
      rw [List.map_cons, List.nodup_cons] at hmap
      have hid : ∀ b ∈ rest, ¬(b.id = a.id) := by
        intro b hb hEq
        exact hmap.1 (by simpa [← hEq] using List.mem_map_of_mem (fun x => x.id) hb)
      have hcongr : ∀ b ∈ rest,
          (avs.filter (fun av => !(av.address_id == a.id))).filter
              (fun av => av.address_id == b.id)
            = avs.filter (fun av => av.address_id == b.id) := by
        intro b hb
        rw [List.filter_filter]
        apply List.filter_congr
        intro av _
        by_cases hEq : av.address_id = b.id
        · have hne : ¬(av.address_id = a.id) := by rw [hEq]; exact hid b hb
          simp only [hEq]
          simp [hid b hb]
        · simp [hEq]
      have hstep : rest.flatMap
            (fun b => (avs.filter (fun av => av.address_id == b.id)).map (fun _ => b))
          = rest.flatMap
            (fun b => ((avs.filter (fun av => !(av.address_id == a.id))).filter
                (fun av => av.address_id == b.id)).map (fun _ => b)) :=
        List.flatMap_congr (fun b hb => by rw [hcongr b hb])
      have hfk₂ : ∀ av ∈ avs.filter (fun av => !(av.address_id == a.id)),
          ∃ x ∈ rest, x.id = av.address_id := by
        intro av hav
        obtain ⟨havs, hneq⟩ := List.mem_filter.mp hav
        obtain ⟨x, hx, hxid⟩ := hfk av havs
        rcases List.mem_cons.mp hx with hxa | hx₂
        · exfalso
          simp only [Bool.not_eq_eq_eq_not, Bool.not_true, beq_eq_false_iff_ne,
            ne_eq] at hneq
          exact hneq (by rw [← hxid, hxa])
        · exact ⟨x, hx₂, hxid⟩
      have ih := flatMap_join_length rest
        (avs.filter (fun av => !(av.address_id == a.id))) hmap.2 hfk₂
      simp only [List.flatMap_cons, List.length_append, List.length_map, hstep, ih]
      exact length_filter_add_not (fun av => av.address_id == a.id) avs


theorem pairwise_const {β : Type} {P : Prop} (hP : P) :
    ∀ l : List β, List.Pairwise (fun _ _ => P) l
  | [] => List.Pairwise.nil
  | _ :: l => List.Pairwise.cons (fun _ _ => hP) (pairwise_const hP l)

theorem sorted_flatMap_dup {α β : Type} {r : α → α → Prop} (hrefl : ∀ a, r a a) :
    ∀ (l : List α), List.Sorted r l → ∀ (k : α → List β),
      List.Sorted r (l.flatMap (fun a => (k a).map (fun _ => a)))
  | [], _, _ => by simp [List.Sorted]
  | a :: l, h, k => by
      rw [List.flatMap_cons]
      have hhead := (List.sorted_cons.mp h).1
      have htail := (List.sorted_cons.mp h).2
      rw [List.Sorted, List.pairwise_append]
      refine ⟨?_, sorted_flatMap_dup hrefl l htail k, ?_⟩
      · exact List.pairwise_map.mpr (pairwise_const (hrefl a) (k a))
      · intro x hx y hy
        obtain ⟨cx, _, hxa⟩ := List.mem_map.mp hx
        obtain ⟨b, hb, hyb⟩ := List.mem_flatMap.mp hy
        obtain ⟨cy, _, hyb₂⟩ := List.mem_map.mp hyb
        rw [← hxa, ← hyb₂]
        exact hhead b hb

theorem initCandidates_sorted (s : Store) : List.Sorted addrLE (initCandidates s) :=
  @sorted_flatMap_dup Address AvailableAddress addrLE (fun a => le_refl a.id)
    (s.addresses.insertionSort addrLE)
    (List.sorted_insertionSort addrLE s.addresses)
    (fun a => s.availables.filter (fun av => av.address_id == a.id))

theorem initCandidates_mem (s : Store) (a : Address) (av : AvailableAddress)
    (ha : a ∈ s.addresses) (hav : av ∈ s.availables) (hlink : av.address_id = a.id) :
    a ∈ initCandidates s := by
  unfold initCandidates
  apply List.mem_flatMap.mpr
  refine ⟨a, (List.mem_insertionSort addrLE).mpr ha, ?_⟩
  apply List.mem_map.mpr
  exact ⟨av, List.mem_filter.mpr ⟨hav, by simp [hlink]⟩, rfl⟩

theorem initCandidates_length (s : Store)
    (hnodup : (s.addresses.map (fun a => a.id)).Nodup)
    (hfk : ∀ av ∈ s.availables, ∃ a ∈ s.addresses, a.id = av.address_id) :
    (initCandidates s).length = s.availables.length := by
  unfold initCandidates
  apply flatMap_join_length
  · rw [List.Perm.nodup_iff (List.Perm.map _ (List.perm_insertionSort addrLE s.addresses))]
    exact hnodup
  · intro av hav
    obtain ⟨a, ha, hid⟩ := hfk av hav
    exact ⟨a, (List.mem_insertionSort addrLE).mpr ha, hid⟩

theorem mkNengaRows_map_addr (y : Int) :
    ∀ (b : Int) (l : List Address),
      (mkNengaRows b y l).map (fun n => n.address_id) = l.map (fun a => a.id)
  | _, [] => rfl
  | b, a :: l => by simp [mkNengaRows, mkNengaRows_map_addr y (b + 1) l]

theorem mkNengaRows_defaults (y : Int) :
    ∀ (b : Int) (l : List Address) (n : Nenga), n ∈ mkNengaRows b y l →
      n.printing = 1 ∧ n.received = 0 ∧ n.mourning = 0 ∧ n.year = y
  | _, [], _, h => absurd h (by simp [mkNengaRows])
  | b, a :: l, n, h => by
      rcases List.mem_cons.mp (by simpa [mkNengaRows] using h) with hn | h₂
      · rw [hn]; exact ⟨rfl, rfl, rfl, rfl⟩
      · exact mkNengaRows_defaults y (b + 1) l n h₂

theorem initCandidates_year_step (s : Store) (y : Int) :
    initCandidates (init_year_step s y) = initCandidates s := rfl

theorem freshNengaId_year_step (s : Store) (y : Int) :
    freshNengaId (init_year_step s y) = freshNengaId s := rfl

theorem init_nextyear_final (s : Store) (y : Int) (hy : yearExists s y = false) :
    (init_nextyear s y).1 = init_nenga_step (init_year_step s y) y := by
  simp [init_nextyear, hy]

theorem rowsForYear_init (s : Store) (y : Int)
    (hy : yearExists s y = false)
    (hfkyear : ∀ n ∈ s.nengas, yearExists s n.year = true) :
    rowsForYear (init_nextyear s y).1 y
      = mkNengaRows (freshNengaId s) y (initCandidates s) := by
  have hnil : s.nengas.filter (fun n => n.year == y) = [] := by
    rw [List.filter_eq_nil_iff]
    intro n hn hbeq
    have hEq : n.year = y := by simpa using hbeq
    have htrue := hfkyear n hn
    rw [hEq, hy] at htrue
    exact Bool.false_ne_true htrue
  have hself : (mkNengaRows (freshNengaId s) y (initCandidates s)).filter
        (fun n => n.year == y)
      = mkNengaRows (freshNengaId s) y (initCandidates s) := by
    rw [List.filter_eq_self]
    intro n hn
    simp [(mkNengaRows_defaults y _ _ n hn).2.2.2]
  rw [rowsForYear, init_nextyear_final s y hy, init_nenga_step,
    initCandidates_year_step, freshNengaId_year_step]
  show (s.nengas ++ mkNengaRows (freshNengaId s) y (initCandidates s)).filter
      (fun n => n.year == y) = _
  rw [List.filter_append, hnil, hself, List.nil_append]

/-- C1: when year `y` already exists in the `years` table, `init_nextyear`
fails with the already-initialized error, commits nothing, and the count
of Nenga rows for `y` is exactly the same after the failed call as before
it. -/
theorem init_nextyear_already_initialized (s : Store) (y : Int)
    (h : yearExists s y = true) :
    init_nextyear s y = (s, some Err.alreadyInitialized) ∧
    init_nextyear_commits s y = [] ∧
    nengaCountForYear (init_nextyear s y).1 y = nengaCountForYear s y := by
  refine ⟨?_, ?_, ?_⟩ <;> simp [init_nextyear, init_nextyear_commits, h]

/-- Witness for C1 at a concrete database where year 2026 exists. -/
theorem init_nextyear_already_initialized_witness :
    yearExists wStore 2026 = true ∧
    (init_nextyear wStore 2026 = (wStore, some Err.alreadyInitialized) ∧
     init_nextyear_commits wStore 2026 = [] ∧
     nengaCountForYear (init_nextyear wStore 2026).1 2026
       = nengaCountForYear wStore 2026) :=
  ⟨by decide, init_nextyear_already_initialized wStore 2026 (by decide)⟩

/-- C3 counterexample: `init_nextyear` is not one atomic unit.  At the
concrete database `wStore` with year 2027 absent, the first committed
state (observable, because `session.commit()` ran) contains the Year row
for 2027 with zero of its Nenga rows, while the finished operation has
one. -/
theorem init_nextyear_intermediate_commit_observable :
    yearExists ((init_nextyear_commits wStore 2027).headD wStore) 2027 = true ∧
    nengaCountForYear ((init_nextyear_commits wStore 2027).headD wStore) 2027 = 0 ∧
    nengaCountForYear (init_nextyear wStore 2027).1 2027 = 1 := by decide

/-- C3 (amended): `init_nextyear` commits in two separate transactions,
not one: the first commit makes the Year row durable while the Nenga table
is still unchanged, and the second commit adds all the new Nenga rows
together; the intermediate state (Year row present, none of its Nenga
rows) is observable between the commits. -/
theorem init_nextyear_two_commit_structure (s : Store) (y : Int)
    (h : yearExists s y = false) :
    init_nextyear_commits s y = [init_year_step s y, (init_nextyear s y).1] ∧
    (init_year_step s y).nengas = s.nengas ∧
    yearExists (init_year_step s y) y = true ∧
    (init_nextyear s y).2 = none ∧
    (init_nextyear s y).1.nengas
      = s.nengas ++ mkNengaRows (freshNengaId s) y (initCandidates s) := by
  refine ⟨?_, rfl, ?_, ?_, ?_⟩
  · simp [init_nextyear_commits, init_nextyear, h]
  · simp [yearExists, init_year_step]
  · simp [init_nextyear, h]
  · rw [init_nextyear_final s y h]
    rfl

/-- Witness for C3's amended theorem at `wStore` with the fresh year
2027. -/
theorem init_nextyear_two_commit_structure_witness :
    yearExists wStore 2027 = false ∧
    (init_nextyear_commits wStore 2027
        = [init_year_step wStore 2027, (init_nextyear wStore 2027).1] ∧
     (init_year_step wStore 2027).nengas = wStore.nengas ∧
     yearExists (init_year_step wStore 2027) 2027 = true ∧
     (init_nextyear wStore 2027).2 = none ∧
     (init_nextyear wStore 2027).1.nengas
       = wStore.nengas
         ++ mkNengaRows (freshNengaId wStore) 2027 (initCandidates wStore)) :=
  ⟨by decide, init_nextyear_two_commit_structure wStore 2027 (by decide)⟩

/-- C2: on a database where year `y` does not exist yet (and, per the
foreign keys, every Nenga row belongs to an existing year, every
AvailableAddress points at an existing address, and address ids are
unique), a successful `init_nextyear` creates exactly one Nenga row for
`y` per AvailableAddress entry, each with `printing=1, received=0,
mourning=0`, in ascending address-id order, covering every current
address. -/
theorem init_nextyear_success_rows (s : Store) (y : Int)
    (hy : yearExists s y = false)
    (hfkyear : ∀ n ∈ s.nengas, yearExists s n.year = true)
    (hnodup : (s.addresses.map (fun a => a.id)).Nodup)
    (hfk : ∀ av ∈ s.availables, ∃ a ∈ s.addresses, a.id = av.address_id) :
    (init_nextyear s y).2 = none ∧
    nengaCountForYear (init_nextyear s y).1 y = s.availables.length ∧
    (∀ n ∈ rowsForYear (init_nextyear s y).1 y,
        n.printing = 1 ∧ n.received = 0 ∧ n.mourning = 0) ∧
    List.Sorted (fun i j => i ≤ j)
      ((rowsForYear (init_nextyear s y).1 y).map (fun n => n.address_id)) ∧
    (∀ av ∈ s.availables, ∃ n ∈ rowsForYear (init_nextyear s y).1 y,
        n.address_id = av.address_id) := by
  have hrows := rowsForYear_init s y hy hfkyear
  refine ⟨by simp [init_nextyear, hy], ?_, ?_, ?_, ?_⟩
  · rw [nengaCountForYear, hrows]
    have hlen : (mkNengaRows (freshNengaId s) y (initCandidates s)).length
        = (initCandidates s).length := by
      have hcong := congrArg List.length
        (mkNengaRows_map_addr y (freshNengaId s) (initCandidates s))
      simpa using hcong
    rw [hlen, initCandidates_length s hnodup hfk]
  · rw [hrows]
    intro n hn
    have hdef := mkNengaRows_defaults y (freshNengaId s) (initCandidates s) n hn
    exact ⟨hdef.1, hdef.2.1, hdef.2.2.1⟩
  · rw [hrows, mkNengaRows_map_addr]
    exact List.Pairwise.map _ (fun a b hab => hab) (initCandidates_sorted s)
  · intro av hav
    obtain ⟨a, ha, hid⟩ := hfk av hav
    have hmem := initCandidates_mem s a av ha hav hid.symm
    rw [hrows]
    have hidmem : a.id ∈ (mkNengaRows (freshNengaId s) y (initCandidates s)).map
        (fun n => n.address_id) := by
      rw [mkNengaRows_map_addr]
      exact List.mem_map_of_mem _ hmem
    obtain ⟨n, hn, hna⟩ := List.mem_map.mp hidmem
    exact ⟨n, hn, hna.trans hid⟩

/-- Witness for C2 at `wStore` with the fresh year 2027: one
AvailableAddress entry, one created row. -/
theorem init_nextyear_success_rows_witness :
    yearExists wStore 2027 = false ∧
    ((init_nextyear wStore 2027).2 = none ∧
     nengaCountForYear (init_nextyear wStore 2027).1 2027
       = wStore.availables.length ∧
     (∀ n ∈ rowsForYear (init_nextyear wStore 2027).1 2027,
         n.printing = 1 ∧ n.received = 0 ∧ n.mourning = 0) ∧
     List.Sorted (fun i j => i ≤ j)
       ((rowsForYear (init_nextyear wStore 2027).1 2027).map
         (fun n => n.address_id)) ∧
     (∀ av ∈ wStore.availables, ∃ n ∈ rowsForYear (init_nextyear wStore 2027).1 2027,
         n.address_id = av.address_id)) :=
  ⟨by decide, init_nextyear_success_rows wStore 2027 (by decide) (by decide)
    (by decide) (by decide)⟩

/-- C10: `init_nextyear` does not filter on person status.  Any address
pointed at by an AvailableAddress entry gets a Nenga row for the new year
even when its owning person is disabled, and the whole operation is
independent of the `people` table. -/
theorem init_nextyear_includes_disabled_persons (s : Store) (y : Int)
    (p : Person) (a : Address) (av : AvailableAddress) (ps : List Person)
    (hy : yearExists s y = false)
    (hp : p ∈ s.people) (hdis : p.disabled = 1)
    (howner : a.person_id = p.id)
    (ha : a ∈ s.addresses) (hav : av ∈ s.availables)
    (hlink : av.address_id = a.id) :
    (∃ n ∈ (init_nextyear s y).1.nengas, n.address_id = a.id ∧ n.year = y) ∧
    init_nextyear { s with people := ps } y
      = ({ (init_nextyear s y).1 with people := ps }, (init_nextyear s y).2) := by
  constructor
  · have hmem := initCandidates_mem s a av ha hav hlink
    have hidmem : a.id ∈ (mkNengaRows (freshNengaId s) y (initCandidates s)).map
        (fun n => n.address_id) := by
      rw [mkNengaRows_map_addr]
      exact List.mem_map_of_mem _ hmem
    obtain ⟨n, hn, hna⟩ := List.mem_map.mp hidmem
    refine ⟨n, ?_, hna, (mkNengaRows_defaults y _ _ n hn).2.2.2⟩
    rw [init_nextyear_final s y hy]
    show n ∈ s.nengas ++ mkNengaRows (freshNengaId s) y (initCandidates s)
    exact List.mem_append_right _ hn
  · have hyF : yearExists { s with people := ps } y = false := hy
    rw [init_nextyear, init_nextyear, hyF, hy]
    rfl

/-- Witness for C10 at `wStore` (whose only person is disabled) with the
fresh year 2027 and the empty replacement people table. -/
theorem init_nextyear_includes_disabled_persons_witness :
    yearExists wStore 2027 = false ∧
    ((∃ n ∈ (init_nextyear wStore 2027).1.nengas,
        n.address_id = wAddr1.id ∧ n.year = 2027) ∧
     init_nextyear { wStore with people := [] } 2027
       = ({ (init_nextyear wStore 2027).1 with people := [] },
          (init_nextyear wStore 2027).2)) :=
  ⟨by decide,
   init_nextyear_includes_disabled_persons wStore 2027
     { id := 1, family_name := ("a"), given_name := ("b"), disabled := 1 }
     wAddr1 { person_id := 1, address_id := 1 } []
     (by decide) (by decide) (by decide) (by decide) (by decide) (by decide)
     (by decide)⟩

theorem updateFirstAvail_find (pid aid : Int) :
    ∀ avs : List AvailableAddress,
      (updateFirstAvail avs pid aid).find? (fun av => av.person_id == pid)
        = some { person_id := pid, address_id := aid }
  | [] => by simp [updateFirstAvail]
  | av :: rest => by
      by_cases h : av.person_id = pid
      · rw [updateFirstAvail, if_pos (by simp [h])]
        rw [List.find?_cons_of_pos _ (by simp [h])]
        simp [h]
      · rw [updateFirstAvail, if_neg (by simp [h])]
        rw [List.find?_cons_of_neg _ (by simp [h])]
        exact updateFirstAvail_find pid aid rest

theorem updateFirstAvail_count (pid aid : Int) :
    ∀ avs : List AvailableAddress,
      ((updateFirstAvail avs pid aid).filter
          (fun av => av.person_id == pid)).length
        = max ((avs.filter (fun av => av.person_id == pid)).length) 1
  | [] => by simp [updateFirstAvail]
  | av :: rest => by
      by_cases h : av.person_id = pid
      · rw [updateFirstAvail, if_pos (by simp [h])]
        rw [List.filter_cons_of_pos (by simp [h]), List.filter_cons_of_pos (by simp [h])]
        simp
      · rw [updateFirstAvail, if_neg (by simp [h])]
        rw [List.filter_cons_of_neg (by simp [h]), List.filter_cons_of_neg (by simp [h])]
        exact updateFirstAvail_count pid aid rest

theorem address_activate_owned (s : Store) (pid : Int) (a : Address)
    (ha : a ∈ s.addresses) (hp : a.person_id = pid) :
    address_activate s pid a.id
      = { s with availables := updateFirstAvail s.availables pid a.id } := by
  rw [address_activate, if_pos]
  apply List.any_eq_true.mpr
  exact ⟨a, List.mem_filter.mpr ⟨ha, by simp [hp]⟩, by simp⟩

/-- C4: after pointing person `pid` at address `A` and then at a different
address `B` (both theirs), the current address is `B`, not `A`; `A` is
still listed in the person's address history; and at both observable
points the person has exactly one current-address entry (given the
primary-key invariant of at most one beforehand). -/
theorem set_current_twice (s : Store) (pid : Int) (A B : Address)
    (hA : A ∈ s.addresses) (hpA : A.person_id = pid)
    (hB : B ∈ s.addresses) (hpB : B.person_id = pid)
    (hAB : ¬A.id = B.id)
    (huniq : (s.availables.filter (fun av => av.person_id == pid)).length ≤ 1) :
    currentAddressId (address_activate (address_activate s pid A.id) pid B.id) pid
      = some B.id ∧
    ¬currentAddressId (address_activate (address_activate s pid A.id) pid B.id) pid
      = some A.id ∧
    A ∈ addressHistory (address_activate (address_activate s pid A.id) pid B.id) pid ∧
    ((address_activate s pid A.id).availables.filter
        (fun av => av.person_id == pid)).length = 1 ∧
    ((address_activate (address_activate s pid A.id) pid B.id).availables.filter
        (fun av => av.person_id == pid)).length = 1 := by
  have h1 : address_activate s pid A.id
      = { s with availables := updateFirstAvail s.availables pid A.id } :=
    address_activate_owned s pid A hA hpA
  have hBmem : B ∈ (address_activate s pid A.id).addresses := by
    rw [h1]; exact hB
  have h2 : address_activate (address_activate s pid A.id) pid B.id
      = { address_activate s pid A.id with
          availables :=
            updateFirstAvail (address_activate s pid A.id).availables pid B.id } :=
    address_activate_owned (address_activate s pid A.id) pid B hBmem hpB
  have hcur : currentAddressId
      (address_activate (address_activate s pid A.id) pid B.id) pid = some B.id := by
    rw [h2, currentAddressId]
    show ((updateFirstAvail (address_activate s pid A.id).availables pid B.id).find?
        (fun av => av.person_id == pid)).map (fun av => av.address_id) = some B.id
    rw [updateFirstAvail_find]
    rfl
  have hc1 : ((address_activate s pid A.id).availables.filter
      (fun av => av.person_id == pid)).length = 1 := by
    rw [h1]
    show ((updateFirstAvail s.availables pid A.id).filter
        (fun av => av.person_id == pid)).length = 1
    rw [updateFirstAvail_count]
    omega
  refine ⟨hcur, ?_, ?_, hc1, ?_⟩
  · rw [hcur]
    simp
    intro hEq
    exact hAB hEq.symm
  · rw [addressHistory]
    apply (List.mem_insertionSort addrLE).mpr
    apply List.mem_filter.mpr
    refine ⟨?_, by simp [hpA]⟩
    rw [h2, h1]
    exact hA
  · rw [h2]
    show ((updateFirstAvail (address_activate s pid A.id).availables pid B.id).filter
        (fun av => av.person_id == pid)).length = 1
    rw [updateFirstAvail_count]
    omega

/-- Witness for C4 at `wStore`: person 1 activates address 1 then
address 2. -/
theorem set_current_twice_witness :
    (wAddr1 ∈ wStore.addresses ∧ wAddr1.person_id = 1 ∧
     wAddr2 ∈ wStore.addresses ∧ wAddr2.person_id = 1 ∧ ¬wAddr1.id = wAddr2.id ∧
     (wStore.availables.filter (fun av => av.person_id == 1)).length ≤ 1) ∧
    (currentAddressId
        (address_activate (address_activate wStore 1 wAddr1.id) 1 wAddr2.id) 1
      = some wAddr2.id ∧
     ¬currentAddressId
        (address_activate (address_activate wStore 1 wAddr1.id) 1 wAddr2.id) 1
      = some wAddr1.id ∧
     wAddr1 ∈ addressHistory
        (address_activate (address_activate wStore 1 wAddr1.id) 1 wAddr2.id) 1 ∧
     ((address_activate wStore 1 wAddr1.id).availables.filter
        (fun av => av.person_id == 1)).length = 1 ∧
     ((address_activate (address_activate wStore 1 wAddr1.id) 1 wAddr2.id).availables.filter
        (fun av => av.person_id == 1)).length = 1) :=
  ⟨by decide,
   set_current_twice wStore 1 wAddr1 wAddr2 (by decide) (by decide) (by decide)
     (by decide) (by decide) (by decide)⟩

/-- C5 counterexample: no `InUse` failure exists on either protected
path.  At `wStore` address 1 is the person's current address and the
claim demands a failure with `InUse`; the call raises nothing — it
returns the ordinary success redirect with the store unchanged.  At
`cStoreDelete` address 1 is not current but is referenced by a Nenga row,
and the claim again demands `InUse`; the call fails with the
storage-level `IntegrityError` from the NOT NULL violation on
`nenga.address_id`, which is not the `InUse` error. -/
theorem address_delete_not_inuse :
    wStore.availables.any (fun av => av.address_id == 1) = true ∧
    address_delete wStore 1 = Except.ok wStore ∧
    cStoreDelete.availables.any (fun av => av.address_id == 1) = false ∧
    cStoreDelete.nengas.any (fun n => n.address_id == 1) = true ∧
    address_delete cStoreDelete 1 = Except.error Err.integrityError ∧
    ¬Err.integrityError = Err.inUse := by decide

/-- C5 (amended): the protective outcome of the claim holds, but not its
error label.  For a fetched address: when an AvailableAddress row marks it
current, the call returns without error and without deleting (the address
stays in the store and in addressHistory); when it is not current but at
least one Nenga row references it, the commit fails with `IntegrityError`
(SQLAlchemy's nullify of the non-nullable `nenga.address_id`), so the
transaction is not committed and the database — address included — is
unchanged; only when neither table references it is the address removed,
after which it no longer appears in its person's address history.  No
`InUse` error is ever produced. -/
theorem address_delete_protects_referenced (s : Store) (a : Address) (chosen : Int)
    (hfind : s.addresses.find? (fun x => x.id == chosen) = some a) :
    (s.availables.any (fun av => av.address_id == a.id) = true →
        address_delete s chosen = Except.ok s) ∧
    (s.availables.any (fun av => av.address_id == a.id) = false →
      s.nengas.any (fun n => n.address_id == a.id) = true →
        address_delete s chosen = Except.error Err.integrityError) ∧
    (s.availables.any (fun av => av.address_id == a.id) = false →
      s.nengas.any (fun n => n.address_id == a.id) = false →
        address_delete s chosen
          = Except.ok
              { s with addresses := s.addresses.filter (fun x => !(x.id == chosen)) } ∧
        ¬a ∈ addressHistory
              { s with addresses := s.addresses.filter (fun x => !(x.id == chosen)) }
              a.person_id) := by
  have haid : a.id = chosen := by
    have hpred := List.find?_some hfind
    simpa using hpred
  refine ⟨?_, ?_, ?_⟩
  · intro hcur
    rw [address_delete, hfind]
    simp [hcur]
  · intro hncur href
    rw [address_delete, hfind]
    simp [hncur, href]
  · intro hncur href
    refine ⟨?_, ?_⟩
    · rw [address_delete, hfind]
      simp [hncur, href]
    · intro hmem
      rw [addressHistory] at hmem
      have hmem₂ := List.mem_filter.mp ((List.mem_insertionSort addrLE).mp hmem)
      have hmem₃ := List.mem_filter.mp hmem₂.1
      have : (!(a.id == chosen)) = true := hmem₃.2
      simp [haid] at this

/-- Witness for C5's amended theorem, at `cStoreDelete` on the
Nenga-referenced branch: the delete attempt fails with `IntegrityError`
and commits nothing. -/
theorem address_delete_protects_referenced_witness :
    (cStoreDelete.addresses.find? (fun x => x.id == 1) = some wAddr1 ∧
     cStoreDelete.availables.any (fun av => av.address_id == wAddr1.id) = false ∧
     cStoreDelete.nengas.any (fun n => n.address_id == wAddr1.id) = true) ∧
    address_delete cStoreDelete 1 = Except.error Err.integrityError :=
  ⟨⟨by decide, by decide, by decide⟩,
   (address_delete_protects_referenced cStoreDelete wAddr1 1 (by decide)).2.1
     (by decide) (by decide)⟩

/-- C6 counterexample: the claim demands that an out-of-domain value
(printing := 5) fail with `InvalidArgument` and change nothing; the code
accepts it, succeeds, and writes 5 into the row. -/
theorem nenga_bulk_edit_no_domain_check :
    nenga_bulk_edit cStoreBulk ("printing_5") [1]
      = Except.ok
          { cStoreBulk with
            nengas := [{ id := 1, address_id := 1, year := 2026, printing := 5,
                         received := 0, mourning := 0 }] } ∧
    ¬({ cStoreBulk with
        nengas := [{ id := 1, address_id := 1, year := 2026, printing := 5,
                     received := 0, mourning := 0 }] } : Store).nengas
      = cStoreBulk.nengas := by
  refine ⟨by decide, by decide⟩

/-- C6 (amended): `nenga_bulk_edit` validates nothing about the decoded
action beyond what Python forces on it.  A field name that is not a
`Nenga` column fails (AttributeError) before any row is written, a
non-integer value fails (ValueError) likewise, and any recognized column
with any integer value — in domain or not, status flag or not — succeeds
and is written to the targeted rows. -/
theorem nenga_bulk_edit_eq_outcome (s : Store) (action cn v : String)
    (ids : List Int) (hsplit : pySplit '_' action = [cn, v]) :
    nenga_bulk_edit s action ids
      = bulkOutcome s ids (nengaColumnOf cn) (pyInt v) := by
  rw [nenga_bulk_edit, hsplit]
  show (match nengaColumnOf cn with
        | none => Except.error Err.attributeError
        | some col =>
          match pyInt v with
          | none => Except.error Err.valueError
          | some x => Except.ok (bulkApply s col x ids))
      = bulkOutcome s ids (nengaColumnOf cn) (pyInt v)
  cases nengaColumnOf cn with
  | none => rfl
  | some col => cases pyInt v <;> rfl

/-- C6 (amended, claim theorem): restatement of the decode semantics —
the operation fails (AttributeError / ValueError) exactly when the field
name is not a `Nenga` column or the value is not an integer literal, and
otherwise applies the UPDATE with no domain validation of the value. -/
theorem nenga_bulk_edit_failure_modes (s : Store) (action cn v : String)
    (ids : List Int) (hsplit : pySplit '_' action = [cn, v]) :
    nenga_bulk_edit s action ids
      = bulkOutcome s ids (nengaColumnOf cn) (pyInt v) :=
  nenga_bulk_edit_eq_outcome s action cn v ids hsplit

/-- Witness for C6's amended theorem on the unknown-column branch
(action `bogus_1`). -/
theorem nenga_bulk_edit_failure_modes_witness :
    (pySplit '_' ("bogus_1") = [("bogus"), ("1")] ∧
     nengaColumnOf ("bogus") = none) ∧
    nenga_bulk_edit cStoreBulk ("bogus_1") [1]
      = bulkOutcome cStoreBulk [1] (nengaColumnOf ("bogus")) (pyInt ("1")) :=
  ⟨⟨by decide, by decide⟩,
   nenga_bulk_edit_failure_modes cStoreBulk ("bogus_1") ("bogus") ("1") [1]
     (by decide)⟩

theorem nengaField_set_same (n : Nenga) (col : NengaField) (x : Int) :
    nengaField (setNengaField n col x) col = x := by
  cases col <;> rfl

theorem nengaField_set_other (n : Nenga) (col g : NengaField) (x : Int)
    (h : ¬g = col) : nengaField (setNengaField n col x) g = nengaField n g := by
  cases col <;> cases g <;> first | rfl | exact absurd rfl h

/-- C7: a valid bulk update (recognized status-flag column, in-domain
value) succeeds and performs exactly the requested change: the four other
tables are untouched, no Nenga row is added or removed, rows whose id is
not targeted are unchanged (unknown ids are simply ignored), and a
targeted row has the chosen column set to the value with every other
column unchanged. -/
theorem nenga_bulk_edit_frame (s : Store) (action cn v : String)
    (ids : List Int) (col : NengaField) (x : Int)
    (hsplit : pySplit '_' action = [cn, v])
    (hcol : nengaColumnOf cn = some col)
    (hflag : col = NengaField.printing ∨ col = NengaField.received ∨
      col = NengaField.mourning)
    (hx : pyInt v = some x)
    (hdom : 0 ≤ x ∧ x ≤ 2 ∧ (col = NengaField.mourning → x ≤ 1)) :
    nenga_bulk_edit s action ids = Except.ok (bulkApply s col x ids) ∧
    (bulkApply s col x ids).people = s.people ∧
    (bulkApply s col x ids).addresses = s.addresses ∧
    (bulkApply s col x ids).availables = s.availables ∧
    (bulkApply s col x ids).years = s.years ∧
    (bulkApply s col x ids).nengas.length = s.nengas.length ∧
    (∀ i (hi : i < s.nengas.length) (hi₂ : i < (bulkApply s col x ids).nengas.length),
      (ids.contains (s.nengas[i]).id = false →
        (bulkApply s col x ids).nengas[i] = s.nengas[i]) ∧
      (ids.contains (s.nengas[i]).id = true →
        nengaField ((bulkApply s col x ids).nengas[i]) col = x ∧
        ∀ g, ¬g = col →
          nengaField ((bulkApply s col x ids).nengas[i]) g
            = nengaField (s.nengas[i]) g)) := by
  refine ⟨?_, rfl, rfl, rfl, rfl, by simp [bulkApply], ?_⟩
  · rw [nenga_bulk_edit_eq_outcome s action cn v ids hsplit, hcol, hx]
    rfl
  · intro i hi hi₂
    have hmap : (bulkApply s col x ids).nengas[i]
        = (fun n => if ids.contains n.id then setNengaField n col x else n)
            (s.nengas[i]) := by
      simp [bulkApply]
    refine ⟨fun hno => ?_, fun hyes => ?_⟩
    · rw [hmap]
      exact if_neg (by rw [hno]; simp)
    · have hval : (bulkApply s col x ids).nengas[i]
          = setNengaField s.nengas[i] col x := by
        rw [hmap]
        exact if_pos hyes
      rw [hval]
      exact ⟨nengaField_set_same _ _ _,
        fun g hg => nengaField_set_other _ _ _ _ hg⟩

/-- Witness for C7: set `printing := 2` on record 1 of `wStore`; the
update succeeds, the targeted printing becomes 2, received is untouched. -/
theorem nenga_bulk_edit_frame_witness :
    nenga_bulk_edit wStore ("printing_2") [1]
      = Except.ok (bulkApply wStore NengaField.printing 2 [1]) ∧
    (bulkApply wStore NengaField.printing 2 [1]).nengas.map (fun n => n.printing)
      = [2] ∧
    (bulkApply wStore NengaField.printing 2 [1]).nengas.map (fun n => n.received)
      = wStore.nengas.map (fun n => n.received) := by
  have h := nenga_bulk_edit_frame wStore ("printing_2") ("printing") ("2") [1]
    NengaField.printing 2 (by decide) (by decide) (Or.inl rfl) (by decide)
    ⟨by decide, by decide, by decide⟩
  exact ⟨h.1, by decide, by decide⟩

theorem mapM_eq_map {α β : Type} (f : α → Option β) (g : α → β) :
    ∀ l : List α, (∀ x ∈ l, f x = some (g x)) → l.mapM f = some (l.map g)
  | [], _ => rfl
  | x :: l, h => by
      rw [List.mapM_cons, h x (List.mem_cons_self x l),
        mapM_eq_map f g l (fun y hy => h y (List.mem_cons_of_mem x hy))]
      rfl

theorem flag_str_eq (args : ExportArgs) (n : Nenga)
    (hdom : n.printing = 0 ∨ n.printing = 1 ∨ n.printing = 2) :
    toString (nengaFlag args n) = (if specFlag args n then ("1") else ("0")) := by
  rcases hdom with h | h | h <;>
    cases hl : args.later_only <;> cases hm : args.exclude_mourning <;>
      by_cases hmo : n.mourning = 1 <;>
        simp [nengaFlag, specFlag, h, hl, hm, hmo] <;> decide

theorem exportRow_eq_specRow (args : ExportArgs) (n : Nenga) (a : Address)
    (hdom : n.printing = 0 ∨ n.printing = 1 ∨ n.printing = 2) :
    exportRow args n a = specRow args n a := by
  rw [exportRow, specRow, flag_str_eq args n hdom]

/-- C8: on well-formed data (every exported record's address exists, its
`printing` is in the 0/1/2 domain, zipcodes are 7 characters long) the
export emits, per record of the year in ascending id order, exactly the
row [flag, family_name, given_name, joint_name1, address1, address2]
followed by the zipcode as 7 one-character columns when splitting is on
and as one column otherwise, with the flag computed as the specification
states; `joint_name2` appears nowhere in `specRow`. -/
theorem export_row_layout (s : Store) (y : Int) (args : ExportArgs)
    (hfk : ∀ n ∈ yearTargets s y, (lookupAddress s n.address_id).isSome = true)
    (hdom : ∀ n ∈ yearTargets s y, n.printing = 0 ∨ n.printing = 1 ∨ n.printing = 2)
    (hzip : ∀ n ∈ yearTargets s y, ∀ a, lookupAddress s n.address_id = some a →
        a.zipcode.length = 7) :
    export_genenga_csv s y args
      = some ((yearTargets s y).map
          (fun n => specRow args n ((lookupAddress s n.address_id).getD defaultAddress))) ∧
    ∀ n ∈ yearTargets s y,
      (specRow args n ((lookupAddress s n.address_id).getD defaultAddress)).length
        = if args.split_zipcode then 13 else 7 := by
  constructor
  · rw [export_genenga_csv]
    apply mapM_eq_map
    intro n hn
    obtain ⟨a, ha⟩ := Option.isSome_iff_exists.mp (hfk n hn)
    rw [ha]
    show some (exportRow args n a) = some (specRow args n ((some a).getD defaultAddress))
    rw [Option.getD_some, exportRow_eq_specRow args n a (hdom n hn)]
  · intro n hn
    obtain ⟨a, ha⟩ := Option.isSome_iff_exists.mp (hfk n hn)
    rw [ha, Option.getD_some]
    have hz := hzip n hn a ha
    cases hsp : args.split_zipcode <;> simp [specRow, hsp, hz]

/-- Witness for C8 at `wStore`, year 2026, with split zipcode on: the
single record yields the 13-column row whose last 7 columns are the
zipcode digits. -/
theorem export_row_layout_witness :
    export_genenga_csv wStore 2026
        { later_only := false, exclude_mourning := false, split_zipcode := true }
      = some ((yearTargets wStore 2026).map
          (fun n => specRow
            { later_only := false, exclude_mourning := false, split_zipcode := true }
            n ((lookupAddress wStore n.address_id).getD defaultAddress))) ∧
    export_genenga_csv wStore 2026
        { later_only := false, exclude_mourning := false, split_zipcode := true }
      = some [[("1"), ("a"), ("b"), ("c"), ("e"), ("f"),
               ("1"), ("2"), ("3"), ("4"), ("5"), ("6"), ("7")]] := by
  have h := export_row_layout wStore 2026
    { later_only := false, exclude_mourning := false, split_zipcode := true }
    (by decide) (by decide) (by decide)
  exact ⟨h.1, by decide⟩

theorem forall2_filter {α : Type} {R : α → α → Prop} (p : α → Bool)
    (hp : ∀ a b, R a b → p a = p b) (l₁ l₂ : List α)
    (h : List.Forall₂ R l₁ l₂) :
    List.Forall₂ R (l₁.filter p) (l₂.filter p) := by
  induction h with
  | nil => simp
  | cons hab ht ih =>
      rename_i a b l₁ l₂
      by_cases hpa : p a = true
      · rw [List.filter_cons_of_pos hpa,
          List.filter_cons_of_pos (by rw [← hp _ _ hab]; exact hpa)]
        exact List.Forall₂.cons hab ih
      · rw [List.filter_cons_of_neg hpa,
          List.filter_cons_of_neg (by rw [← hp _ _ hab]; exact hpa)]
        exact ih

theorem forall2_orderedInsert {α : Type} {R : α → α → Prop}
    (r : α → α → Prop) [DecidableRel r]
    (hr : ∀ a b a₂ b₂, R a a₂ → R b b₂ → (r a b ↔ r a₂ b₂))
    (a a₂ : α) (ha : R a a₂) (l l₂ : List α) (h : List.Forall₂ R l l₂) :
    List.Forall₂ R (l.orderedInsert r a) (l₂.orderedInsert r a₂) := by
  induction h with
  | nil => exact List.Forall₂.cons ha List.Forall₂.nil
  | cons hbc ht ih =>
      rename_i b b₂ l l₂
      by_cases hrb : r a b
      · rw [List.orderedInsert, if_pos hrb,
          List.orderedInsert, if_pos ((hr a b a₂ b₂ ha hbc).mp hrb)]
        exact List.Forall₂.cons ha (List.Forall₂.cons hbc ht)
      · rw [List.orderedInsert, if_neg hrb,
          List.orderedInsert, if_neg (fun hc => hrb ((hr a b a₂ b₂ ha hbc).mpr hc))]
        exact List.Forall₂.cons hbc ih

theorem forall2_insertionSort {α : Type} {R : α → α → Prop}
    (r : α → α → Prop) [DecidableRel r]
    (hr : ∀ a b a₂ b₂, R a a₂ → R b b₂ → (r a b ↔ r a₂ b₂))
    (l₁ l₂ : List α) (h : List.Forall₂ R l₁ l₂) :
    List.Forall₂ R (l₁.insertionSort r) (l₂.insertionSort r) := by
  induction h with
  | nil => exact List.Forall₂.nil
  | cons hab ht ih =>
      rename_i a b l₁ l₂
      rw [List.insertionSort, List.insertionSort]
      exact forall2_orderedInsert r hr a b hab _ _ ih

theorem mapM_congr_forall2 {α β : Type} {R : α → α → Prop}
    (f g : α → Option β) (hf : ∀ a b, R a b → f a = g b)
    (l₁ l₂ : List α) (h : List.Forall₂ R l₁ l₂) :
    l₁.mapM f = l₂.mapM g := by
  induction h with
  | nil => rfl
  | cons hab ht ih =>
      rw [List.mapM_cons, List.mapM_cons, hf _ _ hab, ih]

theorem exportRow_received_free (args : ExportArgs) (a b : Nenga) (c : Address)
    (hR : sameExceptReceived a b) : exportRow args a c = exportRow args b c := by
  rw [exportRow, exportRow, nengaFlag, nengaFlag,
    hR.2.2.2.1, hR.2.2.2.2]

/-- C9: the export never reads the `received` column.  Two databases that
differ only in the `received` values of their Nenga rows produce exactly
the same CSV row sequence for every year and every option combination. -/
theorem export_independent_of_received (s₁ s₂ : Store) (y : Int)
    (args : ExportArgs) (h : differOnlyInReceived s₁ s₂) :
    export_genenga_csv s₁ y args = export_genenga_csv s₂ y args := by
  obtain ⟨hpe, had, hav, hyr, hng⟩ := h
  have hfil : List.Forall₂ sameExceptReceived (rowsForYear s₁ y) (rowsForYear s₂ y) :=
    forall2_filter _ (fun a b hab => by rw [show a.year = b.year from hab.2.2.1])
      _ _ hng
  have hsort : List.Forall₂ sameExceptReceived (yearTargets s₁ y) (yearTargets s₂ y) :=
    forall2_insertionSort nengaLE
      (fun a b a₂ b₂ haa hbb => by
        rw [nengaLE, nengaLE, show a.id = a₂.id from haa.1,
          show b.id = b₂.id from hbb.1])
      _ _ hfil
  rw [export_genenga_csv, export_genenga_csv]
  apply mapM_congr_forall2 _ _ _ _ _ hsort
  intro a b hab
  rw [lookupAddress, lookupAddress, had, hab.2.1]
  cases hc : s₂.addresses.find? (fun x => x.id == b.address_id) with
  | none => rfl
  | some c => simp [exportRow_received_free args a b c hab]

/-- Witness for C9: `cStoreBulk` and `wStoreRecv` differ only in the
`received` value of their single record, and export identically. -/
theorem export_independent_of_received_witness :
    differOnlyInReceived cStoreBulk wStoreRecv ∧
    export_genenga_csv cStoreBulk 2026
        { later_only := false, exclude_mourning := true, split_zipcode := true }
      = export_genenga_csv wStoreRecv 2026
        { later_only := false, exclude_mourning := true, split_zipcode := true } := by
  have hdiff : differOnlyInReceived cStoreBulk wStoreRecv := by
    refine ⟨rfl, rfl, rfl, rfl, ?_⟩
    exact List.Forall₂.cons ⟨rfl, rfl, rfl, rfl, rfl⟩ List.Forall₂.nil
  exact ⟨hdiff,
    export_independent_of_received cStoreBulk wStoreRecv 2026
      { later_only := false, exclude_mourning := true, split_zipcode := true } hdiff⟩

end Nengaweb
